import Mathlib

/-!
Verification of the forecasting engine of the publication-forecast project
(file src/forecasting.py), shallowly embedded in Lean 4.

Modelling conventions:
- A pandas float value is modelled as `Option ℚ`: `none` models IEEE NaN
  (produced by the mean of an empty window), `some x` a finite value.
- A Python function that can raise is modelled with an `Option` result:
  `none` models a raised exception.
- The trend fitter (statsmodels Holt, an external library) is a parameter
  `fit : FitFn`; `fit series periods = none` models the fit raising an
  exception, which the code catches, `some l` models a successful fit
  returning the forecast values `l`.
- pandas groupby emits groups in sorted key order; the embedding collects
  the distinct keys with `List.dedup` instead, since no verified property
  depends on the order in which groups are emitted.
-/

/-- A pandas float cell: `none` models NaN. -/
abbrev Val := Option ℚ

-- === Constants (src/forecasting.py lines 17-28) ===

def TRAINING_START : ℤ := 2015

def TRAINING_END : ℤ := 2025

def FORECAST_START : ℤ := 2026

def FORECAST_END : ℤ := 2035

/-- FORECAST_HORIZON = FORECAST_END - FORECAST_START + 1 (10 years). -/
def FORECAST_HORIZON : ℕ := (FORECAST_END - FORECAST_START + 1).toNat

/-- Minimum non-zero data points required for the Holt method. -/
def MIN_HISTORY_POINTS : ℕ := 3

/-- Metrics rounded to integers (discrete counts). -/
def DISCRETE_METRICS : List String := ["Publication Quantity", "Citation Quantity"]

-- === Data model ===

/-- One row of the long-format historical table (the input contract:
columns Region Code, Region, School, Year, Metric, Value). -/
structure Row where
  regionCode : String
  region : String
  school : String
  year : ℤ
  metric : String
  value : Val
deriving DecidableEq

/-- The Type tag of an output row. -/
inductive RowType where
  | history
  | forecast
deriving DecidableEq

/-- One row of the combined output table (input columns plus Type). -/
structure ORow where
  regionCode : String
  region : String
  school : String
  year : ℤ
  metric : String
  value : Val
  type : RowType
deriving DecidableEq

/-- Tag a row with a Type, as in df_train["Type"] = "History". -/
def tagRow (t : RowType) (r : Row) : ORow :=
  ⟨r.regionCode, r.region, r.school, r.year, r.metric, r.value, t⟩

/-- Drop the Type tag of an output row. -/
def ORow.untag (o : ORow) : Row :=
  ⟨o.regionCode, o.region, o.school, o.year, o.metric, o.value⟩

/-- The groupby key (Region Code, Region, School, Metric). -/
structure GroupKey where
  regionCode : String
  region : String
  school : String
  metric : String
deriving DecidableEq

def Row.key (r : Row) : GroupKey :=
  ⟨r.regionCode, r.region, r.school, r.metric⟩

def ORow.key (o : ORow) : GroupKey :=
  ⟨o.regionCode, o.region, o.school, o.metric⟩

-- === Numeric primitives ===

/-- pandas Series.mean with skipna: NaN entries are skipped; the mean of an
empty (or all-NaN) series is NaN, modelled `none`. -/
def pandasMean (l : List Val) : Val :=
  let vs := l.filterMap id
  if vs.length = 0 then none else some (vs.sum / (vs.length : ℚ))

/-- Series.tail(n): the last n entries. -/
def seriesTail (l : List Val) (n : ℕ) : List Val :=
  l.drop (l.length - n)

-- === Forecasters (src/forecasting.py lines 43-101) ===

/-- simple_moving_average: mean of the last min(3, len) values, repeated
`periods` times (lines 43-58). -/
def simple_moving_average (series : List Val) (periods : ℕ := FORECAST_HORIZON) :
    List Val :=
  let window := min 3 series.length
  let avg := pandasMean (seriesTail series window)
  List.replicate periods avg

/-- The external Holt fitter: `none` models the fit raising an exception. -/
def FitFn := List Val → ℕ → Option (List Val)

/-- holts_linear_trend (lines 61-78): try the Holt fit; on any exception
fall back to simple_moving_average. -/
def holts_linear_trend (fit : FitFn) (series : List Val)
    (periods : ℕ := FORECAST_HORIZON) : List Val :=
  match fit series periods with
  | some forecast => forecast
  | none => simple_moving_average series periods

/-- Count of strictly positive entries, (series > 0).sum(); a NaN entry
compares False. -/
def countNonZero (series : List Val) : ℕ :=
  series.countP (fun v => match v with
    | some x => decide (0 < x)
    | none => false)

/-- forecast_series (lines 81-101): SMA when fewer than MIN_HISTORY_POINTS
non-zero points, Holt otherwise. -/
def forecast_series (fit : FitFn) (series : List Val)
    (periods : ℕ := FORECAST_HORIZON) : List Val :=
  if countNonZero series < MIN_HISTORY_POINTS then
    simple_moving_average series periods
  else
    holts_linear_trend fit series periods

-- === Post-processing (src/forecasting.py lines 161-167) ===

/-- numpy round-half-to-even of a rational to an integer, the rule behind
Series.round(0). -/
def roundHalfEven (x : ℚ) : ℤ :=
  let n := ⌊x⌋
  let frac := x - (n : ℚ)
  if frac < 1/2 then n
  else if 1/2 < frac then n + 1
  else if n % 2 = 0 then n else n + 1

/-- Clip negative values to 0 (line 162); NaN < 0 is False so NaN stays. -/
def clipValue (v : Val) : Val :=
  match v with
  | none => none
  | some x => if x < 0 then some 0 else some x

/-- Series.round(0) on one cell; round of NaN is NaN. -/
def roundValue (v : Val) : Val :=
  match v with
  | none => none
  | some x => some ((roundHalfEven x : ℤ) : ℚ)

/-- The per-row effect of lines 161-167: clip negatives to 0, then round
discrete metrics to the nearest integer. -/
def postProcessRow (o : ORow) : ORow :=
  let v := clipValue o.value
  let v := if o.metric ∈ DISCRETE_METRICS then roundValue v else v
  { o with value := v }

/-- The Post-Processor on the combined table: both masks of lines 161-167
act row-locally, so their effect is a pointwise map. -/
def postProcess (l : List ORow) : List ORow :=
  l.map postProcessRow

-- === Forecast assembly (src/forecasting.py lines 104-169) ===

/-- Training-window membership, line 115. -/
def inTrainingWindow (r : Row) : Bool :=
  TRAINING_START ≤ r.year && r.year ≤ TRAINING_END

/-- forecast_years = list(range(FORECAST_START, FORECAST_END + 1)). -/
def forecast_years : List ℤ :=
  (List.range FORECAST_HORIZON).map (fun i => FORECAST_START + (i : ℤ))

/-- The ordered value series of one group: rows with the key, sorted by
Year (lines 133-134). -/
def groupSeries (train : List Row) (k : GroupKey) : List Val :=
  (List.insertionSort (fun a b => a.year ≤ b.year)
      (train.filter (fun r => r.key = k))).map (·.value)

/-- The per-group forecast DataFrame of lines 140-149: ten year-tagged
rows; pandas raises when the value column length differs from the year
column length, modelled `none`. -/
def forecastRowsFor (k : GroupKey) (values : List Val) : Option (List ORow) :=
  if values.length = forecast_years.length then
    some ((forecast_years.zip values).map (fun yv =>
      ⟨k.regionCode, k.region, k.school, yv.1, k.metric, yv.2, RowType.forecast⟩))
  else none

/-- The loop of lines 128-151 followed by pd.concat(all_forecasts): each
group in turn is forecast and its rows appended. -/
def buildForecasts (fit : FitFn) (train : List Row) : List GroupKey → Option (List ORow)
  | [] => some []
  | k :: ks =>
    match forecastRowsFor k (forecast_series fit (groupSeries train k) FORECAST_HORIZON),
          buildForecasts fit train ks with
    | some rows, some rest => some (rows ++ rest)
    | _, _ => none

/-- The distinct group keys of the training table. pandas emits groups in
sorted key order; the properties proved below do not depend on that order,
so the embedding uses List.dedup. -/
def groupKeys (train : List Row) : List GroupKey :=
  (train.map Row.key).dedup

/-- generate_forecasts (lines 104-169): filter to the training window, tag
history, forecast each (Region Code, Region, School, Metric) group,
concatenate, clip and round. `none` models a raised exception: pd.concat
of an empty list of group forecasts raises ValueError. -/
def generate_forecasts (fit : FitFn) (df : List Row) : Option (List ORow) :=
  let train := df.filter inTrainingWindow
  let keys := groupKeys train
  match buildForecasts fit train keys with
  | none => none
  | some fcst =>
    if keys.isEmpty then none
    else some (postProcess (train.map (tagRow RowType.history) ++ fcst))

/-- A fitter that always raises, exercising the fallback path. -/
def failFit : FitFn := fun _ _ => none

-- === Concrete fixtures used by witnesses ===

/-- A one-row input table: one school, one discrete metric, year 2020. -/
def dfW : List Row :=
  [⟨"01", "Region I", "Sample University", 2020, "Publication Quantity", some 4⟩]

/-- The group key of the single series of dfW. -/
def kW : GroupKey := ⟨"01", "Region I", "Sample University", "Publication Quantity"⟩

/-- The table generate_forecasts produces from dfW with a failing fitter:
the history row plus ten flat forecast rows at the trailing mean 4. -/
def outW : List ORow :=
  ⟨"01", "Region I", "Sample University", 2020, "Publication Quantity", some 4,
      RowType.history⟩
    :: forecast_years.map (fun y =>
        ⟨"01", "Region I", "Sample University", y, "Publication Quantity", some 4,
          RowType.forecast⟩)


-- === Helper lemmas ===

theorem sma_length (series : List Val) (periods : ℕ) :
    (simple_moving_average series periods).length = periods := by
  simp [simple_moving_average]

theorem forecast_series_failFit (series : List Val) (periods : ℕ) :
    forecast_series failFit series periods = simple_moving_average series periods := by
  unfold forecast_series holts_linear_trend failFit
  split <;> rfl

theorem forecast_years_length : forecast_years.length = FORECAST_HORIZON := by
  decide

theorem forecastRowsFor_of_length {values : List Val} (k : GroupKey)
    (h : values.length = forecast_years.length) :
    forecastRowsFor k values = some ((forecast_years.zip values).map (fun yv =>
      ⟨k.regionCode, k.region, k.school, yv.1, k.metric, yv.2, RowType.forecast⟩)) := by
  simp [forecastRowsFor, h]

theorem buildForecasts_failFit (train : List Row) (ks : List GroupKey) :
    ∃ l, buildForecasts failFit train ks = some l := by
  induction ks with
  | nil => exact ⟨[], rfl⟩
  | cons k ks ih =>
    obtain ⟨l, hl⟩ := ih
    unfold buildForecasts
    rw [forecast_series_failFit,
      forecastRowsFor_of_length k (by rw [sma_length, forecast_years_length]), hl]
    exact ⟨_, rfl⟩

theorem countNonZero_replicate_zero (n : ℕ) :
    countNonZero (List.replicate n (some 0)) = 0 := by
  induction n with
  | zero => rfl
  | succ m ih =>
    rw [List.replicate_succ]
    simp only [countNonZero, List.countP_cons] at ih ⊢
    simp [ih]

theorem roundHalfEven_intCast (n : ℤ) : roundHalfEven (n : ℚ) = n := by
  simp [roundHalfEven]

theorem roundHalfEven_nonneg {x : ℚ} (h : 0 ≤ x) : 0 ≤ roundHalfEven x := by
  have hf : 0 ≤ ⌊x⌋ := Int.floor_nonneg.mpr h
  simp only [roundHalfEven]
  split_ifs <;> omega

theorem clipValue_some (x : ℚ) :
    ∃ y : ℚ, clipValue (some x) = some y ∧ 0 ≤ y := by
  by_cases h : x < 0
  · exact ⟨0, by simp [clipValue, h], le_refl 0⟩
  · exact ⟨x, by simp [clipValue, h], le_of_not_lt h⟩

theorem clipValue_of_nonneg {x : ℚ} (h : 0 ≤ x) : clipValue (some x) = some x := by
  simp [clipValue, not_lt.mpr h]

theorem clipValue_idem (v : Val) : clipValue (clipValue v) = clipValue v := by
  cases v with
  | none => rfl
  | some x =>
    by_cases h : x < 0
    · simp [clipValue, h]
    · simp [clipValue, h]

theorem postProcessRow_idem (o : ORow) : postProcessRow (postProcessRow o) = postProcessRow o := by
  unfold postProcessRow
  by_cases hm : o.metric ∈ DISCRETE_METRICS
  · simp only [hm, if_pos]
    cases hv : o.value with
    | none => simp [clipValue, roundValue]
    | some x =>
      obtain ⟨y, hy, hy0⟩ := clipValue_some x
      rw [hy]
      simp only [roundValue]
      have h2 : (0 : ℚ) ≤ ((roundHalfEven y : ℤ) : ℚ) := by
        exact_mod_cast roundHalfEven_nonneg hy0
      rw [clipValue_of_nonneg h2]
      simp [roundValue, roundHalfEven_intCast]
  · simp only [hm, if_neg, if_false]
    simp [clipValue_idem]

theorem postProcessRow_year (o : ORow) : (postProcessRow o).year = o.year := rfl

theorem postProcessRow_type (o : ORow) : (postProcessRow o).type = o.type := rfl

theorem postProcessRow_key (o : ORow) : (postProcessRow o).key = o.key := rfl

theorem postProcessRow_metric (o : ORow) : (postProcessRow o).metric = o.metric := rfl

theorem forecastRowsFor_spec {k : GroupKey} {values : List Val} {rows : List ORow}
    (h : forecastRowsFor k values = some rows) :
    (∀ o ∈ rows, o.type = RowType.forecast ∧ o.key = k ∧ o.value ∈ values)
    ∧ rows.map (fun o => o.year) = forecast_years := by
  unfold forecastRowsFor at h
  split at h
  case isTrue hl =>
    cases h
    constructor
    · intro o ho
      simp only [List.mem_map] at ho
      obtain ⟨yv, hyv, rfl⟩ := ho
      exact ⟨rfl, rfl, (List.of_mem_zip hyv).2⟩
    · rw [List.map_map]
      exact List.map_fst_zip _ _ (le_of_eq hl.symm)
  case isFalse => cases h

theorem buildForecasts_mem {fit : FitFn} {train : List Row} :
    ∀ {ks : List GroupKey} {l : List ORow}, buildForecasts fit train ks = some l →
      ∀ o ∈ l, o.type = RowType.forecast ∧ o.key ∈ ks
        ∧ o.value ∈ forecast_series fit (groupSeries train o.key) FORECAST_HORIZON := by
  intro ks
  induction ks with
  | nil =>
    intro l h o ho
    cases h
    cases ho
  | cons k ks ih =>
    intro l h o ho
    unfold buildForecasts at h
    cases hf : forecastRowsFor k (forecast_series fit (groupSeries train k) FORECAST_HORIZON) with
    | none => rw [hf] at h; cases h
    | some rows =>
      cases hb : buildForecasts fit train ks with
      | none => rw [hf, hb] at h; cases h
      | some rest =>
        rw [hf, hb] at h
        cases h
        rcases List.mem_append.mp ho with hor | hor
        · obtain ⟨ht, hk, hv⟩ := (forecastRowsFor_spec hf).1 o hor
          subst hk
          exact ⟨ht, List.mem_cons_self _ _, hv⟩
        · obtain ⟨ht, hk, hv⟩ := ih hb o hor
          exact ⟨ht, List.mem_cons_of_mem _ hk, hv⟩

theorem buildForecasts_filter {fit : FitFn} {train : List Row} :
    ∀ {ks : List GroupKey} {l : List ORow}, buildForecasts fit train ks = some l →
      ks.Nodup → ∀ k ∈ ks,
      (l.filter (fun o => o.type == RowType.forecast && o.key == k)).map (fun o => o.year)
        = forecast_years := by
  intro ks
  induction ks with
  | nil => intro l h _ k hk; cases hk
  | cons k0 ks ih =>
    intro l h hnd k hk
    unfold buildForecasts at h
    cases hf : forecastRowsFor k0 (forecast_series fit (groupSeries train k0) FORECAST_HORIZON) with
    | none => rw [hf] at h; cases h
    | some rows =>
      cases hb : buildForecasts fit train ks with
      | none => rw [hf, hb] at h; cases h
      | some rest =>
        rw [hf, hb] at h
        cases h
        rw [List.filter_append, List.map_append]
        rcases List.mem_cons.mp hk with rfl | hk2
        · have h1 : rows.filter (fun o => o.type == RowType.forecast && o.key == k) = rows := by
            rw [List.filter_eq_self]
            intro o ho
            obtain ⟨ht, hkk, _⟩ := (forecastRowsFor_spec hf).1 o ho
            simp [ht, hkk]
          have h2 : rest.filter (fun o => o.type == RowType.forecast && o.key == k) = [] := by
            rw [List.filter_eq_nil_iff]
            intro o ho
            obtain ⟨_, hkmem, _⟩ := buildForecasts_mem hb o ho
            have hne : o.key ≠ k := fun he => (List.nodup_cons.mp hnd).1 (he ▸ hkmem)
            simp [hne]
          rw [h1, h2, List.map_nil, List.append_nil]
          exact (forecastRowsFor_spec hf).2
        · have hne : k0 ≠ k := fun he => (List.nodup_cons.mp hnd).1 (he ▸ hk2)
          have h1 : rows.filter (fun o => o.type == RowType.forecast && o.key == k) = [] := by
            rw [List.filter_eq_nil_iff]
            intro o ho
            obtain ⟨_, hkk, _⟩ := (forecastRowsFor_spec hf).1 o ho
            simp [hkk, hne]
          rw [h1, List.map_nil, List.nil_append]
          exact ih hb (List.nodup_cons.mp hnd).2 k hk2

theorem generate_forecasts_eq {fit : FitFn} {df : List Row} {out : List ORow}
    (h : generate_forecasts fit df = some out) :
    ∃ fcst, buildForecasts fit (df.filter inTrainingWindow)
        (groupKeys (df.filter inTrainingWindow)) = some fcst
      ∧ groupKeys (df.filter inTrainingWindow) ≠ []
      ∧ out = postProcess ((df.filter inTrainingWindow).map (tagRow RowType.history) ++ fcst) := by
  simp only [generate_forecasts] at h
  split at h
  · cases h
  · next fcst hb =>
    split at h
    · cases h
    · next hk =>
      cases h
      refine ⟨fcst, hb, ?_, rfl⟩
      intro hnil
      rw [hnil] at hk
      exact hk rfl

theorem generate_forecasts_mem {fit : FitFn} {df : List Row} {out : List ORow}
    (h : generate_forecasts fit df = some out) :
    ∀ o ∈ out, ∃ o₀, o = postProcessRow o₀ ∧
      ((∃ r ∈ df.filter inTrainingWindow, o₀ = tagRow RowType.history r)
        ∨ (o₀.type = RowType.forecast
            ∧ o₀.key ∈ groupKeys (df.filter inTrainingWindow)
            ∧ o₀.value ∈ forecast_series fit
                (groupSeries (df.filter inTrainingWindow) o₀.key) FORECAST_HORIZON)) := by
  obtain ⟨fcst, hb, _, rfl⟩ := generate_forecasts_eq h
  intro o ho
  obtain ⟨o₀, ho₀, rfl⟩ := List.mem_map.mp ho
  refine ⟨o₀, rfl, ?_⟩
  rcases List.mem_append.mp ho₀ with h1 | h1
  · left
    obtain ⟨r, hr, rfl⟩ := List.mem_map.mp h1
    exact ⟨r, hr, rfl⟩
  · right
    exact buildForecasts_mem hb o₀ h1

theorem groupSeries_mem {train : List Row} {k : GroupKey} {v : Val}
    (hv : v ∈ groupSeries train k) : ∃ r ∈ train, r.value = v := by
  unfold groupSeries at hv
  obtain ⟨r, hr, rfl⟩ := List.mem_map.mp hv
  have hr2 : r ∈ train.filter (fun r => r.key = k) :=
    ((List.perm_insertionSort (fun a b => a.year ≤ b.year) _).mem_iff).mp hr
  exact ⟨r, (List.mem_filter.mp hr2).1, rfl⟩

theorem groupSeries_ne_nil {train : List Row} {k : GroupKey}
    (hk : k ∈ groupKeys train) : groupSeries train k ≠ [] := by
  unfold groupKeys at hk
  obtain ⟨r, hr, rfl⟩ := List.mem_map.mp (List.mem_dedup.mp hk)
  intro hcon
  have hmem : r ∈ train.filter (fun x => x.key = r.key) :=
    List.mem_filter.mpr ⟨hr, by simp⟩
  have hmem2 : r ∈ List.insertionSort (fun a b => a.year ≤ b.year)
      (train.filter (fun x => x.key = r.key)) :=
    ((List.perm_insertionSort (fun a b => a.year ≤ b.year) _).mem_iff).mpr hmem
  unfold groupSeries at hcon
  rw [List.map_eq_nil_iff] at hcon
  rw [hcon] at hmem2
  cases hmem2

theorem pandasMean_some {l : List Val} (hne : l ≠ []) (hcl : ∀ v ∈ l, v ≠ none) :
    pandasMean l ≠ none := by
  unfold pandasMean
  cases l with
  | nil => exact absurd rfl hne
  | cons v t =>
    cases v with
    | none => exact absurd rfl (hcl none (List.mem_cons_self _ _))
    | some x => simp [List.filterMap_cons]

theorem sma_values {series : List Val} (periods : ℕ) (hne : series ≠ [])
    (hcl : ∀ v ∈ series, v ≠ none) :
    ∀ v ∈ simple_moving_average series periods, v ≠ none := by
  intro v hv
  simp only [simple_moving_average] at hv
  have hv2 := List.eq_of_mem_replicate hv
  subst hv2
  apply pandasMean_some
  · unfold seriesTail
    have h1 : 1 ≤ min 3 series.length := by
      have h2 := List.length_pos.mpr hne
      omega
    have h2 : min 3 series.length ≤ series.length := min_le_right _ _
    intro hcon
    have h3 := congrArg List.length hcon
    rw [List.length_drop, List.length_nil] at h3
    omega
  · intro w hw
    exact hcl w (List.mem_of_mem_drop hw)

theorem forecast_series_values {fit : FitFn} {series : List Val} {periods : ℕ}
    (hne : series ≠ []) (hcl : ∀ v ∈ series, v ≠ none)
    (hfit : ∀ s p l, fit s p = some l → ∀ v ∈ l, v ≠ none) :
    ∀ v ∈ forecast_series fit series periods, v ≠ none := by
  intro v hv
  unfold forecast_series at hv
  split at hv
  · exact sma_values periods hne hcl v hv
  · unfold holts_linear_trend at hv
    cases hf : fit series periods with
    | none => rw [hf] at hv; exact sma_values periods hne hcl v hv
    | some l => rw [hf] at hv; exact hfit _ _ _ hf v hv

theorem output_value_some {fit : FitFn} {df : List Row} {out : List ORow}
    (hclean : ∀ r ∈ df, r.value ≠ none)
    (hfit : ∀ s p l, fit s p = some l → ∀ v ∈ l, v ≠ none)
    (h : generate_forecasts fit df = some out) :
    ∀ o ∈ out, ∃ o₀ : ORow, ∃ x : ℚ, o = postProcessRow o₀ ∧ o₀.value = some x := by
  intro o ho
  obtain ⟨o₀, rfl, hcase⟩ := generate_forecasts_mem h o ho
  refine ⟨o₀, ?_⟩
  rcases hcase with ⟨r, hr, rfl⟩ | ⟨_, hk, hv⟩
  · have : r.value ≠ none := hclean r (List.mem_filter.mp hr).1
    cases hx : r.value with
    | none => exact absurd hx this
    | some x => exact ⟨x, rfl, hx⟩
  · have hne : o₀.value ≠ none := by
      refine forecast_series_values (groupSeries_ne_nil hk) ?_ hfit o₀.value hv
      intro w hw
      obtain ⟨r, hr, rfl⟩ := groupSeries_mem hw
      exact hclean r (List.mem_filter.mp hr).1
    cases hx : o₀.value with
    | none => exact absurd hx hne
    | some x => exact ⟨x, rfl, rfl⟩

theorem postProcessRow_value_spec {o : ORow} {x : ℚ} (h : o.value = some x) :
    ∃ y : ℚ, (postProcessRow o).value = some y ∧ 0 ≤ y
      ∧ (o.metric ∈ DISCRETE_METRICS → ∃ n : ℤ, y = (n : ℚ)) := by
  obtain ⟨y, hy, hy0⟩ := clipValue_some x
  by_cases hm : o.metric ∈ DISCRETE_METRICS
  · refine ⟨((roundHalfEven y : ℤ) : ℚ), ?_, ?_, fun _ => ⟨roundHalfEven y, rfl⟩⟩
    · simp only [postProcessRow, h, hm, if_pos, hy, roundValue]
    · exact_mod_cast roundHalfEven_nonneg hy0
  · refine ⟨y, ?_, hy0, fun hc => absurd hc hm⟩
    simp only [postProcessRow, h, hm, if_neg, if_false, hy]

theorem postProcessRow_histW :
    postProcessRow ⟨"01", "Region I", "Sample University", 2020,
        "Publication Quantity", some 4, RowType.history⟩
      = ⟨"01", "Region I", "Sample University", 2020, "Publication Quantity", some 4,
          RowType.history⟩ := by
  norm_num [postProcessRow, clipValue, roundValue, roundHalfEven, DISCRETE_METRICS]

theorem postProcessRow_fcstW (y : ℤ) :
    postProcessRow ⟨"01", "Region I", "Sample University", y,
        "Publication Quantity", some 4, RowType.forecast⟩
      = ⟨"01", "Region I", "Sample University", y, "Publication Quantity", some 4,
          RowType.forecast⟩ := by
  norm_num [postProcessRow, clipValue, roundValue, roundHalfEven, DISCRETE_METRICS]

theorem smaW : simple_moving_average [some 4] FORECAST_HORIZON
    = List.replicate 10 (some 4) := by
  have hFH : FORECAST_HORIZON = 10 := by decide
  rw [hFH]
  norm_num [simple_moving_average, pandasMean, seriesTail, List.filterMap]

theorem genW_eval : generate_forecasts failFit dfW = some outW := by
  have hfil : dfW.filter inTrainingWindow = dfW := by decide
  have hkeys : groupKeys dfW = [kW] := by decide
  have hser : groupSeries dfW kW = [some 4] := by decide
  have hrows : forecastRowsFor kW (List.replicate 10 (some 4))
      = some (forecast_years.map (fun y =>
          ⟨"01", "Region I", "Sample University", y, "Publication Quantity", some 4,
            RowType.forecast⟩)) := by decide
  have hbf : buildForecasts failFit dfW [kW]
      = some (forecast_years.map (fun y => ⟨"01", "Region I", "Sample University", y,
          "Publication Quantity", some 4, RowType.forecast⟩)) := by
    unfold buildForecasts
    rw [forecast_series_failFit, hser, smaW, hrows]
    simp [buildForecasts]
  have hpost : postProcess (dfW.map (tagRow RowType.history)
      ++ forecast_years.map (fun y => ⟨"01", "Region I", "Sample University", y,
          "Publication Quantity", some 4, RowType.forecast⟩)) = outW := by
    simp only [postProcess, dfW, outW, List.map_cons, List.map_nil, List.map_append,
      List.map_map, tagRow, List.cons_append, List.nil_append]
    rw [postProcessRow_histW]
    congr 1
    exact List.map_congr_left (fun y _ => postProcessRow_fcstW y)
  simp only [generate_forecasts, hfil, hkeys, hbf]
  simp [hpost]

theorem filterMap_id_map_some (l : List ℚ) : (l.map some).filterMap id = l := by
  induction l with
  | nil => rfl
  | cons x t ih => simp [List.filterMap_cons, ih]

theorem smaZ57 : simple_moving_average [some 0, some 5, some 7] 10
    = List.replicate 10 (some 4) := by
  norm_num [simple_moving_average, pandasMean, seriesTail, List.filterMap]

theorem sma_map_some (s : List ℚ) (periods : ℕ) (h : s ≠ []) :
    simple_moving_average (s.map some) periods
      = List.replicate periods
          (some ((s.drop (s.length - min 3 s.length)).sum
            / ((min 3 s.length : ℕ) : ℚ))) := by
  have hw1 : min 3 s.length ≤ s.length := min_le_right _ _
  have hw0 : 1 ≤ min 3 s.length := by
    have := List.length_pos.mpr h
    omega
  simp only [simple_moving_average, seriesTail, List.length_map]
  rw [← List.map_drop]
  simp only [pandasMean, filterMap_id_map_some, List.length_drop]
  have hlen : s.length - (s.length - min 3 s.length) = min 3 s.length := by omega
  rw [hlen, if_neg (by omega)]

/-- C1: the model selector of forecast_series counts the strictly positive
values of the series; when that count is below MIN_HISTORY_POINTS = 3 it
applies the Average Forecaster (simple_moving_average), and when the count
is 3 or more it applies the Trend Forecaster (holts_linear_trend); an
all-zero series has count 0 and therefore always falls back to the average. -/
theorem C1_model_selector (fit : FitFn) (series : List Val) (periods : ℕ) :
    MIN_HISTORY_POINTS = 3
    ∧ (countNonZero series < MIN_HISTORY_POINTS →
        forecast_series fit series periods = simple_moving_average series periods)
    ∧ (MIN_HISTORY_POINTS ≤ countNonZero series →
        forecast_series fit series periods = holts_linear_trend fit series periods)
    ∧ (∀ n : ℕ, countNonZero (List.replicate n (some 0)) = 0) := by
  refine ⟨rfl, ?_, ?_, countNonZero_replicate_zero⟩
  · intro hc
    simp [forecast_series, hc]
  · intro hc
    simp [forecast_series, not_lt.mpr hc]

/-- C1 witness: the series [0, 5, 7] has two strictly positive values, below
the threshold, so the Average Forecaster is applied. -/
theorem C1_model_selector_witness :
    countNonZero [some 0, some 5, some 7] < MIN_HISTORY_POINTS
    ∧ forecast_series failFit [some 0, some 5, some 7] 10
        = simple_moving_average [some 0, some 5, some 7] 10 :=
  ⟨by decide, (C1_model_selector failFit [some 0, some 5, some 7] 10).2.1 (by decide)⟩

/-- C2: whenever generate_forecasts returns a table, every group key present
in the training-window input gets exactly ten Forecast-tagged rows, one for
each year 2026 through 2035, contiguous, with no gaps and no duplicates. -/
theorem C2_forecast_rows (fit : FitFn) (df : List Row) (out : List ORow)
    (h : generate_forecasts fit df = some out) :
    FORECAST_HORIZON = 10
    ∧ forecast_years = [2026, 2027, 2028, 2029, 2030, 2031, 2032, 2033, 2034, 2035]
    ∧ ∀ k ∈ groupKeys (df.filter inTrainingWindow),
        (out.filter (fun o => o.type == RowType.forecast && o.key == k)).map
            (fun o => o.year)
          = forecast_years := by
  refine ⟨by decide, by decide, ?_⟩
  obtain ⟨fcst, hb, _, rfl⟩ := generate_forecasts_eq h
  intro k hk
  have hcomp : ((fun o : ORow => o.type == RowType.forecast && o.key == k) ∘ postProcessRow)
      = fun o : ORow => o.type == RowType.forecast && o.key == k :=
    funext fun o => rfl
  rw [postProcess, List.filter_map, hcomp, List.map_map]
  have hyear : ((fun o : ORow => o.year) ∘ postProcessRow) = fun o : ORow => o.year :=
    funext fun o => rfl
  rw [hyear, List.filter_append, List.map_append]
  have h1 : ((df.filter inTrainingWindow).map (tagRow RowType.history)).filter
      (fun o => o.type == RowType.forecast && o.key == k) = [] := by
    rw [List.filter_eq_nil_iff]
    intro o ho
    obtain ⟨r, _, rfl⟩ := List.mem_map.mp ho
    simp [tagRow]
  rw [h1, List.map_nil, List.nil_append]
  exact buildForecasts_filter hb (List.nodup_dedup _) k hk

/-- C2 witness: the one-series input dfW gets forecast rows for exactly the
years 2026 through 2035. -/
theorem C2_forecast_rows_witness :
    (outW.filter (fun o => o.type == RowType.forecast && o.key == kW)).map
        (fun o => o.year) = forecast_years :=
  (C2_forecast_rows failFit dfW outW genW_eval).2.2 kW (by decide)

/-- C3: a failure of the Holt fit is never propagated: holts_linear_trend
answers with the Average Forecaster projection for that series, and a batch
run whose fitter fails on every series still produces a table whenever
training-window rows exist, so no pathological series aborts the batch. -/
theorem C3_holt_fallback (fit : FitFn) (series : List Val) (periods : ℕ) :
    (fit series periods = none →
      holts_linear_trend fit series periods = simple_moving_average series periods)
    ∧ (∀ df : List Row, df.filter inTrainingWindow ≠ [] →
        ∃ out, generate_forecasts failFit df = some out) := by
  constructor
  · intro hf
    simp [holts_linear_trend, hf]
  · intro df hne
    obtain ⟨fcst, hb⟩ := buildForecasts_failFit (df.filter inTrainingWindow)
        (groupKeys (df.filter inTrainingWindow))
    have hkeys : ¬(groupKeys (df.filter inTrainingWindow)).isEmpty = true := by
      intro hc
      apply hne
      rw [List.isEmpty_iff] at hc
      unfold groupKeys at hc
      rw [List.dedup_eq_nil, List.map_eq_nil_iff] at hc
      exact hc
    refine ⟨postProcess ((df.filter inTrainingWindow).map (tagRow RowType.history)
        ++ fcst), ?_⟩
    simp only [generate_forecasts, hb]
    rw [if_neg hkeys]

/-- C3 witness: with the always-failing fitter the fallback equation holds on
a concrete series and a full batch on dfW still succeeds. -/
theorem C3_holt_fallback_witness :
    holts_linear_trend failFit [some 1, some 2, some 3] 10
      = simple_moving_average [some 1, some 2, some 3] 10
    ∧ ∃ out, generate_forecasts failFit dfW = some out :=
  ⟨(C3_holt_fallback failFit [some 1, some 2, some 3] 10).1 rfl,
   (C3_holt_fallback failFit [] 0).2 dfW (by decide)⟩

/-- C4 counterexample: on the series [0, 5, 7] the code averages the last
three values including the zero, so every forecast value is 4.0, not the
claimed 6.0. -/
theorem C4_counterexample :
    simple_moving_average [some 0, some 5, some 7] 10 = List.replicate 10 (some 4)
    ∧ simple_moving_average [some 0, some 5, some 7] 10
        ≠ List.replicate 10 (some 6) := by
  refine ⟨smaZ57, ?_⟩
  rw [smaZ57]
  decide

/-- C4 (amended): for every non-empty NaN-free series the Average Forecaster
returns exactly periods identical values, each the arithmetic mean of the
trailing min(3, length) values in year order with zeros included: for
[0, 5, 7] every forecast value is 4.0, and for an all-zero series it is 0. -/
theorem C4_average_forecaster (s : List ℚ) (periods : ℕ) (h : s ≠ []) :
    simple_moving_average (s.map some) periods
      = List.replicate periods
          (some ((s.drop (s.length - min 3 s.length)).sum
            / ((min 3 s.length : ℕ) : ℚ)))
    ∧ simple_moving_average [some 0, some 5, some 7] 10 = List.replicate 10 (some 4)
    ∧ (∀ n : ℕ, simple_moving_average (List.replicate (n + 1) (some 0)) 10
        = List.replicate 10 (some 0)) := by
  refine ⟨sma_map_some s periods h, smaZ57, ?_⟩
  intro n
  have h2 := sma_map_some (List.replicate (n + 1) (0 : ℚ)) 10 (by simp)
  rw [List.map_replicate] at h2
  rw [h2]
  congr 1
  congr 1
  rw [List.drop_replicate, List.sum_replicate]
  simp

/-- C4 witness: the amended mean formula instantiated at the series
[0, 5, 7]. -/
theorem C4_average_forecaster_witness :
    simple_moving_average ([(0 : ℚ), 5, 7].map some) 10
      = List.replicate 10
          (some (([(0 : ℚ), 5, 7].drop ([(0 : ℚ), 5, 7].length
              - min 3 [(0 : ℚ), 5, 7].length)).sum
            / ((min 3 [(0 : ℚ), 5, 7].length : ℕ) : ℚ))) :=
  (C4_average_forecaster [0, 5, 7] 10 (by simp)).1

/-- C5 counterexample: on an empty series the code returns ten NaN values,
the pandas mean of an empty window, not ten zeros. -/
theorem C5_counterexample :
    simple_moving_average ([] : List Val) FORECAST_HORIZON
        = List.replicate FORECAST_HORIZON none
    ∧ simple_moving_average ([] : List Val) FORECAST_HORIZON
        ≠ List.replicate FORECAST_HORIZON (some 0) := by
  exact ⟨rfl, by decide⟩

/-- C5 (amended): the Average Forecaster does not raise on an empty series:
it returns periods values, each the NaN mean of the empty trailing window
(modelled none), rather than 0. -/
theorem C5_empty_series (periods : ℕ) :
    simple_moving_average ([] : List Val) periods = List.replicate periods none
    ∧ (simple_moving_average ([] : List Val) periods).length = periods := by
  refine ⟨rfl, ?_⟩
  simp [simple_moving_average]

/-- C6: the Post-Processor, clip negatives to zero then round the discrete
count metrics, is idempotent: applying it twice to any combined table gives
the same table as applying it once. -/
theorem C6_postProcess_idempotent (l : List ORow) :
    postProcess (postProcess l) = postProcess l := by
  simp only [postProcess, List.map_map]
  exact List.map_congr_left (fun o _ => postProcessRow_idem o)

theorem postProcessRow_id_of_clean {o : ORow}
    (hpos : ∀ x : ℚ, o.value = some x → 0 ≤ x)
    (hint : o.metric ∈ DISCRETE_METRICS → ∀ x : ℚ, o.value = some x →
        ∃ n : ℤ, x = (n : ℚ)) :
    postProcessRow o = o := by
  have hcl : clipValue o.value = o.value := by
    cases hv : o.value with
    | none => rfl
    | some x => exact clipValue_of_nonneg (hpos x hv)
  have hrd : o.metric ∈ DISCRETE_METRICS → roundValue o.value = o.value := by
    intro hm
    cases hv : o.value with
    | none => rfl
    | some x =>
      obtain ⟨n, rfl⟩ := hint hm x hv
      simp [roundValue, roundHalfEven_intCast]
  simp only [postProcessRow, hcl]
  by_cases hm : o.metric ∈ DISCRETE_METRICS
  · simp [hm, hrd hm]
  · simp [hm]

/-- C7: in the final table every value of a discrete-count metric is a whole
number, and the Post-Processor alters a row of any other metric only by the
clip of negative values, leaving it otherwise unrounded; input and fit
values are assumed numeric (not NaN). -/
theorem C7_discrete_rounding (fit : FitFn) (df : List Row) (out : List ORow)
    (hclean : ∀ r ∈ df, r.value ≠ none)
    (hfit : ∀ s p l, fit s p = some l → ∀ v ∈ l, v ≠ none)
    (h : generate_forecasts fit df = some out) :
    (∀ o ∈ out, o.metric ∈ DISCRETE_METRICS → ∃ n : ℤ, o.value = some ((n : ℤ) : ℚ))
    ∧ (∀ o : ORow, o.metric ∉ DISCRETE_METRICS →
        postProcessRow o = { o with value := clipValue o.value }) := by
  constructor
  · intro o ho hm
    obtain ⟨o₀, x, rfl, hx⟩ := output_value_some hclean hfit h o ho
    obtain ⟨y, hy, _, hint⟩ := postProcessRow_value_spec hx
    obtain ⟨n, rfl⟩ := hint hm
    exact ⟨n, hy⟩
  · intro o hm
    simp [postProcessRow, hm]

/-- C7 witness: the history row of outW carries a whole-number value of the
discrete metric. -/
theorem C7_discrete_rounding_witness :
    ∃ n : ℤ, (⟨"01", "Region I", "Sample University", 2020, "Publication Quantity",
        some 4, RowType.history⟩ : ORow).value = some ((n : ℤ) : ℚ) :=
  (C7_discrete_rounding failFit dfW outW (by decide) (fun s p l hl => nomatch hl)
      genW_eval).1
    ⟨"01", "Region I", "Sample University", 2020, "Publication Quantity",
        some 4, RowType.history⟩
    (by decide) (by decide)

/-- C8: every row of the final table, history and forecast alike, carries a
non-negative value, given NaN-free input and fit values. -/
theorem C8_nonneg (fit : FitFn) (df : List Row) (out : List ORow)
    (hclean : ∀ r ∈ df, r.value ≠ none)
    (hfit : ∀ s p l, fit s p = some l → ∀ v ∈ l, v ≠ none)
    (h : generate_forecasts fit df = some out) :
    ∀ o ∈ out, ∃ x : ℚ, o.value = some x ∧ 0 ≤ x := by
  intro o ho
  obtain ⟨o₀, x, rfl, hx⟩ := output_value_some hclean hfit h o ho
  obtain ⟨y, hy, hy0, _⟩ := postProcessRow_value_spec hx
  exact ⟨y, hy, hy0⟩

/-- C8 witness: the 2026 forecast row of outW carries a non-negative value. -/
theorem C8_nonneg_witness :
    ∃ x : ℚ, (⟨"01", "Region I", "Sample University", 2026, "Publication Quantity",
        some 4, RowType.forecast⟩ : ORow).value = some x ∧ 0 ≤ x :=
  C8_nonneg failFit dfW outW (by decide) (fun s p l hl => nomatch hl) genW_eval
    ⟨"01", "Region I", "Sample University", 2026, "Publication Quantity",
        some 4, RowType.forecast⟩
    (by decide)

/-- C9: generate_forecasts itself restricts the input to the training
window: the History-tagged rows of the output are exactly the input rows
with 2015 through 2025 as the Year, in input order, and an input row whose
Year lies outside the window appears in no History row; input values are
assumed to satisfy the input contract (non-negative, whole for discrete
metrics) so the global post-processing leaves history values unchanged. -/
theorem C9_training_window (fit : FitFn) (df : List Row) (out : List ORow)
    (hpos : ∀ r ∈ df, ∀ x : ℚ, r.value = some x → 0 ≤ x)
    (hint : ∀ r ∈ df, r.metric ∈ DISCRETE_METRICS → ∀ x : ℚ, r.value = some x →
        ∃ n : ℤ, x = (n : ℚ))
    (h : generate_forecasts fit df = some out) :
    (out.filter (fun o => o.type == RowType.history)).map ORow.untag
        = df.filter inTrainingWindow
    ∧ (∀ o ∈ out, o.type = RowType.history →
        TRAINING_START ≤ o.year ∧ o.year ≤ TRAINING_END)
    ∧ (∀ r ∈ df, inTrainingWindow r = false →
        ∀ o ∈ out, o.type = RowType.history → ORow.untag o ≠ r) := by
  obtain ⟨fcst, hb, _, houts⟩ := generate_forecasts_eq h
  have h1 : (out.filter (fun o => o.type == RowType.history)).map ORow.untag
      = df.filter inTrainingWindow := by
    rw [houts, postProcess, List.filter_map]
    have hcomp : ((fun o : ORow => o.type == RowType.history) ∘ postProcessRow)
        = fun o : ORow => o.type == RowType.history := funext fun o => rfl
    rw [hcomp, List.filter_append]
    have hfc : fcst.filter (fun o => o.type == RowType.history) = [] := by
      rw [List.filter_eq_nil_iff]
      intro o ho
      have ht := (buildForecasts_mem hb o ho).1
      simp [ht]
    have hhi : ((df.filter inTrainingWindow).map (tagRow RowType.history)).filter
        (fun o => o.type == RowType.history)
        = (df.filter inTrainingWindow).map (tagRow RowType.history) := by
      rw [List.filter_eq_self]
      intro o ho
      obtain ⟨r, _, rfl⟩ := List.mem_map.mp ho
      rfl
    rw [hhi, hfc, List.append_nil, List.map_map, List.map_map]
    have hid : ∀ r ∈ df.filter inTrainingWindow,
        ((ORow.untag ∘ postProcessRow) ∘ tagRow RowType.history) r = id r := by
      intro r hr
      have hr2 := List.mem_filter.mp hr
      have hpp : postProcessRow (tagRow RowType.history r) = tagRow RowType.history r :=
        postProcessRow_id_of_clean (fun x hx => hpos r hr2.1 x hx)
          (fun hm x hx => hint r hr2.1 hm x hx)
      show ORow.untag (postProcessRow (tagRow RowType.history r)) = r
      rw [hpp]
      rfl
    rw [List.map_congr_left hid, List.map_id]
  refine ⟨h1, ?_, ?_⟩
  · intro o ho hh
    rw [houts] at ho
    obtain ⟨o₀, ho₀, rfl⟩ := List.mem_map.mp ho
    rcases List.mem_append.mp ho₀ with hc | hc
    · obtain ⟨r, hr, rfl⟩ := List.mem_map.mp hc
      have hw := (List.mem_filter.mp hr).2
      simp only [inTrainingWindow, Bool.and_eq_true, decide_eq_true_eq] at hw
      rw [postProcessRow_year]
      exact hw
    · have ht := (buildForecasts_mem hb o₀ hc).1
      rw [postProcessRow_type, ht] at hh
      cases hh
  · intro r hr hrw o ho hh heq
    have hmem : ORow.untag o ∈ (out.filter (fun o => o.type == RowType.history)).map
        ORow.untag :=
      List.mem_map_of_mem _ (List.mem_filter.mpr ⟨ho, by simp [hh]⟩)
    rw [h1] at hmem
    have hw := (List.mem_filter.mp hmem).2
    rw [heq, hrw] at hw
    cases hw

/-- C9 witness: on dfW the History rows of outW are exactly the in-window
input rows. -/
theorem C9_training_window_witness :
    (outW.filter (fun o => o.type == RowType.history)).map ORow.untag
      = dfW.filter inTrainingWindow :=
  (C9_training_window failFit dfW outW
    (by
      intro r hr x hx
      simp only [dfW, List.mem_singleton] at hr
      subst hr
      cases hx
      norm_num)
    (by
      intro r hr hm x hx
      simp only [dfW, List.mem_singleton] at hr
      subst hr
      cases hx
      exact ⟨4, by norm_num⟩)
    genW_eval).1

/-- C10: when the input has no rows inside the training window there are no
groups, and generate_forecasts models the ValueError raised by concatenating
an empty list of per-group forecasts: it returns none, never an empty
combined table. -/
theorem C10_no_groups (fit : FitFn) (df : List Row)
    (h : df.filter inTrainingWindow = []) :
    generate_forecasts fit df = none := by
  simp only [generate_forecasts, h]
  simp [groupKeys, buildForecasts]

/-- C10 witness: a single row at year 2040 lies outside the window, so the
run fails. -/
theorem C10_no_groups_witness :
    generate_forecasts failFit [⟨"01", "Region I", "Sample University", 2040,
        "Publication Quantity", none⟩] = none :=
  C10_no_groups failFit _ (by decide)
